import Mathlib

/-!
Shallow embedding of `src/utils/automl_format/format_automl_new.py`:
conversion of datasets in AutoML format to AutoDL SequenceExample records.

Numeric entries are modelled as rationals, numpy arrays as lists of
rationals (1-D) or lists of rows (2-D), and file side effects as explicit
fields of a write-state record.
-/

namespace FormatAutoML

/-- A feature matrix: a numpy 2-D array or a scipy sparse matrix.
`ncols` is `shape[1]` (well defined even with zero rows), `rows` holds the
logical entries row by row, and `sparse` records whether the object is a
scipy sparse matrix (the thing `scipy.sparse.issparse` checks). -/
structure Matrix where
  ncols : Nat
  rows : List (List ℚ)
  sparse : Bool
deriving Repr, DecidableEq

/-- Model of `is_sparse(obj)`, i.e. `scipy.sparse.issparse(obj)`. -/
def is_sparse (m : Matrix) : Bool := m.sparse

/-- Model of `.size`: for a dense numpy array the number of cells
`shape[0] * shape[1]`; for a scipy sparse matrix the number of stored
entries, which in canonical form are the nonzero entries. -/
def Matrix.size (m : Matrix) : Nat :=
  if m.sparse then (m.rows.map (fun r => r.countP (fun x => decide (x ≠ 0)))).sum
  else m.rows.length * m.ncols

/-- Row stacking: both `scipy.sparse.vstack([A, B])` and
`np.concatenate([A, B])` (axis 0) append the rows of `B` after those of
`A`; the width and density of the result are those of `A` (equal widths
are required by numpy/scipy, and density is dataset-wide). -/
def Matrix.vconcat (a b : Matrix) : Matrix :=
  ⟨a.ncols, a.rows ++ b.rows, a.sparse⟩

/-- A label array handed over by the data loader: 1-D (one scalar per
example) or 2-D (one row per example, `ncols` = `shape[1]`). -/
inductive LabelData where
  | oneD (v : List ℚ)
  | twoD (ncols : Nat) (rows : List (List ℚ))
deriving Repr, DecidableEq

/-- Model of `np.stack([a, b], axis=1)` for two 1-D arrays of equal length. -/
def npStackAxis1 (a b : List ℚ) : List (List ℚ) :=
  (a.zip b).map (fun p => [p.1, p.2])

/-- Model of `binary_to_multilabel(binary_label)`:
`np.stack([1 - binary_label, binary_label], axis=1)`. -/
def binary_to_multilabel (l : List ℚ) : List (List ℚ) :=
  npStackAxis1 (l.map (fun x => 1 - x)) l

/-- Model of `np.median` on a 1-D array: the middle element of the sorted data when
the length is odd, the mean of the two middle elements when it is even.
(numpy yields NaN on an empty array; the `0` placeholder is never
observed, since every claim evaluates the median of a nonempty vector or
discards it.) -/
def npMedian (l : List ℚ) : ℚ :=
  let s := List.insertionSort (fun a b => a ≤ b) l
  let n := l.length
  if n = 0 then 0
  else if n % 2 = 1 then s.getD (n / 2) 0
  else (s.getD (n / 2 - 1) 0 + s.getD (n / 2) 0) / 2

/-- Model of `regression_to_multilabel(regression_label)` with the default
`get_threshold = np.median`: `binary_label = (regression_label > threshold)`
elementwise — the booleans become 0/1 under numpy arithmetic — then
`binary_to_multilabel`. -/
def regression_to_multilabel (l : List ℚ) : List (List ℚ) :=
  let threshold := npMedian l
  binary_to_multilabel (l.map (fun x => if threshold < x then 1 else 0))

/-- The `D.info` fields the converter reads: dataset name, storage
density (`"dense"` or `"sparse"`), task kind, and the loader's count of
test examples (`test_num`). -/
structure DInfo where
  name : String
  format : String
  task : String
  test_num : Nat
deriving Repr, DecidableEq

/-- The `D.data` matrices the converter reads. -/
structure DData where
  X_train : Matrix
  X_valid : Matrix
  X_test : Matrix
  Y_train : LabelData
  Y_valid : LabelData
  Y_test : LabelData
deriving Repr, DecidableEq

/-- The data-loading collaborator's object `D`. -/
structure DataManagerD where
  info : DInfo
  data : DData
deriving Repr, DecidableEq

/-- Errors of `_prepare_metadata_features_and_labels` (all raised as
`ValueError`, except the two cases noted). -/
inductive PrepErr where
  /-- Raised when `set_type` is neither `train` nor `test` (line 173). -/
  | wrongSetType
  /-- Part of the shape is given, part is `None`: the product raises
  `TypeError`, caught and re-raised at line 193. -/
  | missingShape (sequence_size row_count col_count num_channels : Option Nat)
  /-- Declared shape product disagrees with the flat width (line 198). -/
  | shapeMismatch (declared observed : Nat)
  /-- Raised by `labels.shape[1]` on a 1-D array (line 209, an `IndexError`). -/
  | labelShape
  /-- numpy behavior outside every claim: stacking a 2-D label array in
  the regression/binary branch, or concatenating label arrays of
  different dimensionality. -/
  | unmodelled
deriving Repr, DecidableEq

/-- Model of `np.concatenate([Y_train, Y_valid])` (line 164): 1-D arrays join into
one 1-D array, 2-D arrays stack their rows; mixed dimensionality makes
numpy raise, a case outside every claim. -/
def concatLabels : LabelData → LabelData → Except PrepErr LabelData
  | .oneD a, .oneD b => .ok (.oneD (a ++ b))
  | .twoD c a, .twoD _ b => .ok (.twoD c (a ++ b))
  | _, _ => .error .unmodelled

/-- Lines 152–173: fetch the split's feature and label data; for the
train split, when the validation feature matrix has nonzero `size`,
append the validation rows after the training rows (`scipy.sparse.vstack`
when `is_sparse(X_train)`, else `np.concatenate` — both are `vconcat`)
and concatenate the labels likewise. -/
def fetchSplit (D : DataManagerD) (set_type : String) :
    Except PrepErr (Matrix × LabelData) :=
  if set_type == "train" then
    if D.data.X_valid.size ≠ 0 then
      match concatLabels D.data.Y_train D.data.Y_valid with
      | .ok labels => .ok (Matrix.vconcat D.data.X_train D.data.X_valid, labels)
      | .error e => .error e
    else .ok (D.data.X_train, D.data.Y_train)
  else if set_type == "test" then
    .ok (D.data.X_test, D.data.Y_test)
  else .error .wrongSetType

/-- Lines 174–178: normalize regression and binary-classification labels
to the two-column indicator form; any other task kind passes through.
(`np.stack(..., axis=1)` applied to a 2-D label array would build a 3-D
array no later stage accepts; outside every claim, flagged
`unmodelled`.) -/
def normalizeLabels (task : String) (labels : LabelData) :
    Except PrepErr LabelData :=
  if task == "regression" then
    match labels with
    | .oneD v => .ok (.twoD 2 (regression_to_multilabel v))
    | .twoD _ _ => .error .unmodelled
  else if task == "binary.classification" then
    match labels with
    | .oneD v => .ok (.twoD 2 (binary_to_multilabel v))
    | .twoD _ _ => .error .unmodelled
  else .ok labels

/-- The class `AutoMLMetadata` (lines 105–126). -/
structure AutoMLMetadata where
  dataset_name : String
  sample_count : Nat
  output_dim : Nat
  set_type : String
  sequence_size : Nat
  row_count : Nat
  col_count : Nat
  num_channels : Nat
deriving Repr, DecidableEq

/-- Lines 180–188: when all four shape components are unset, default to
`(1, 1, flat_width, 1)`; otherwise keep them as given. -/
def resolveShape (features : Matrix)
    (sequence_size row_count col_count num_channels : Option Nat) :
    Option Nat × Option Nat × Option Nat × Option Nat :=
  if sequence_size.isNone && row_count.isNone && col_count.isNone
      && num_channels.isNone then
    (some 1, some 1, some features.ncols, some 1)
  else (sequence_size, row_count, col_count, num_channels)

/-- Lines 190–215, after the shape was resolved: a shape still holding a
`None` fails (`TypeError` on the product, re-raised at line 193), a
complete shape must have product equal to the flat feature width, and the
metadata is built from the survivors. -/
def buildFromResolved (D : DataManagerD) (set_type : String)
    (features : Matrix) (labels : LabelData)
    (resolved : Option Nat × Option Nat × Option Nat × Option Nat) :
    Except PrepErr (AutoMLMetadata × Matrix × (Nat × List (List ℚ))) :=
  match resolved with
  | (some s, some r, some c, some ch) =>
    let num_entries := s * r * c * ch
    if features.ncols ≠ num_entries then
      .error (.shapeMismatch num_entries features.ncols)
    else
      match labels with
      | .oneD _ => .error .labelShape
      | .twoD lc lrows =>
        .ok (⟨D.info.name, features.rows.length, lc, set_type, s, r, c, ch⟩,
             features, (lc, lrows))
  | (s, r, c, ch) => .error (.missingShape s r c ch)

def resolveShapeAndBuild (D : DataManagerD) (set_type : String)
    (features : Matrix) (labels : LabelData)
    (sequence_size row_count col_count num_channels : Option Nat) :
    Except PrepErr (AutoMLMetadata × Matrix × (Nat × List (List ℚ))) :=
  buildFromResolved D set_type features labels
    (resolveShape features sequence_size row_count col_count num_channels)

/-- The function `_prepare_metadata_features_and_labels` (lines 139–215). -/
def prepare_metadata_features_and_labels (D : DataManagerD) (set_type : String)
    (sequence_size row_count col_count num_channels : Option Nat) :
    Except PrepErr (AutoMLMetadata × Matrix × (Nat × List (List ℚ))) := do
  let fl ← fetchSplit D set_type
  let labels ← normalizeLabels D.info.task fl.2
  resolveShapeAndBuild D set_type fl.1 labels
    sequence_size row_count col_count num_channels

/-- The feature payload of a record: either the three parallel sparse
lists of one frame, or the list of dense frames. -/
inductive FeaturePayload where
  | sparse (col_index row_index : List Nat) (value : List ℚ)
  | dense (frames : List (List ℚ))
deriving Repr, DecidableEq

/-- One serialized `SequenceExample` (lines 340–371): the context fields
`id`, `label_index`, `label_score`, and the feature lists. -/
structure SequenceExample where
  id : Nat
  label_index : List Nat
  label_score : List ℚ
  payload : FeaturePayload
deriving Repr, DecidableEq

/-- Helper for `dense_to_sparse_label`: the enumerate-and-filter scan
with the running index made explicit. -/
def denseToSparseAux : Nat → List ℚ → List Nat × List ℚ
  | _, [] => ([], [])
  | i, x :: xs =>
    let rest := denseToSparseAux (i + 1) xs
    if x ≠ 0 then (i :: rest.1, x :: rest.2) else rest

/-- The function `dense_to_sparse_label` (lines 223–237): indexes and scores of the
truthy (nonzero) entries, in ascending index order. -/
def dense_to_sparse_label (l : List ℚ) : List Nat × List ℚ :=
  denseToSparseAux 0 l

/-- The function `csr_feature_vector_to_lists` (lines 217–221): a canonical CSR row
stores its nonzero entries with ascending column indices, so `indices`
and `data` are the nonzero scan of the logical row; the row-index list is
all zeros of the same length. -/
def csr_feature_vector_to_lists (row : List ℚ) : List Nat × List Nat × List ℚ :=
  let p := denseToSparseAux 0 row
  (p.1, List.replicate p.1.length 0, p.2)

/-- Split a list into consecutive chunks of `k` elements (`k ≠ 0`). -/
def chunkList (k : Nat) : List ℚ → List (List ℚ)
  | [] => []
  | x :: xs =>
    if _h : k = 0 then []
    else (x :: xs).take k :: chunkList k ((x :: xs).drop k)
termination_by l => l.length
decreasing_by simp [List.length_drop]; omega

/-- Errors of `convert_vectors_to_sequence_example`. -/
inductive ConvErr where
  /-- Sparse features with `sequence_size != 1`: `NotImplementedError`
  (line 348), the Configuration Error of the spec's taxonomy. -/
  | sparseSeq
  /-- Raised by `np.reshape(feature_row, (sequence_size, -1))` with a width not
  divisible by `sequence_size` (line 361). -/
  | reshape
deriving Repr, DecidableEq

/-- Model of `np.reshape(feature_row, (sequence_size, -1))` (line 361): partition
the flat row into `sequence_size` contiguous equal-width frames; numpy
raises when `sequence_size` is 0 or does not divide the width. -/
def npReshapeRow (sequence_size : Nat) (row : List ℚ) :
    Except ConvErr (List (List ℚ)) :=
  if sequence_size = 0 then .error .reshape
  else if row.length % sequence_size ≠ 0 then .error .reshape
  else .ok (chunkList (row.length / sequence_size) row)

/-- The body of the write loop (lines 332–371) for one
(feature row, label row) pair at the current `counter`: test-set records
carry empty label fields; sparse features require `sequence_size = 1`
(else `NotImplementedError` is raised before the record is written);
dense features are one frame when `sequence_size = 1`, else the reshaped
frames. -/
def encodeRow (is_test_set has_sparse_features : Bool) (sequence_size : Nat)
    (id_translation counter : Nat) (feature_row label_row : List ℚ) :
    Except ConvErr SequenceExample :=
  let lab :=
    if is_test_set then (([] : List Nat), ([] : List ℚ))
    else dense_to_sparse_label label_row
  if has_sparse_features then
    if sequence_size ≠ 1 then .error .sparseSeq
    else
      let t := csr_feature_vector_to_lists feature_row
      .ok ⟨counter + id_translation, lab.1, lab.2, .sparse t.1 t.2.1 t.2.2⟩
  else
    if sequence_size = 1 then
      .ok ⟨counter + id_translation, lab.1, lab.2, .dense [feature_row]⟩
    else
      match npReshapeRow sequence_size feature_row with
      | .ok frames => .ok ⟨counter + id_translation, lab.1, lab.2, .dense frames⟩
      | .error e => .error e

/-- Python truthiness of the optional `max_num_examples` argument:
`None` and `0` are falsy. -/
def truthy : Option Nat → Bool
  | none => false
  | some n => n != 0

/-- The write loop of lines 330–375: emit one record per
(feature, label) pair of `zip(features, labels)`, incrementing `counter`
after each write and breaking once
`max_num_examples and counter >= max_num_examples`; a row-level exception
aborts the loop, keeping the records already written.  Returns the
records written, the final counter, and the raised error if any. -/
def writeLoop (is_test_set has_sparse_features : Bool)
    (sequence_size id_translation : Nat) (max_num_examples : Option Nat) :
    Nat → List (List ℚ × List ℚ) → List SequenceExample × Nat × Option ConvErr
  | counter, [] => ([], counter, none)
  | counter, (f, l) :: rest =>
    match encodeRow is_test_set has_sparse_features sequence_size
        id_translation counter f l with
    | .error e => ([], counter, some e)
    | .ok r =>
      if truthy max_num_examples = true ∧
          max_num_examples.getD 0 ≤ counter + 1 then
        ([r], counter + 1, none)
      else
        let w := writeLoop is_test_set has_sparse_features sequence_size
          id_translation max_num_examples (counter + 1) rest
        (r :: w.1, w.2.1, w.2.2)

/-- The sidecar `metadata.textproto` (lines 261–298) as a structured
value: the template fields after substitution. -/
structure MetadataTextproto where
  sample_count : Nat
  sequence_size : Nat
  output_dim : Nat
  col_count : Nat
  row_count : Nat
  num_channels : Nat
  format : String
deriving Repr, DecidableEq

/-- The function `_write_metadata_textproto` (lines 261–298): `sample_count` is the
loop counter handed in; the rest comes from the metadata, and the format
flag from `D_info['format']`. -/
def write_metadata_textproto (counter : Nat) (metadata : AutoMLMetadata)
    (D_info : DInfo) : MetadataTextproto :=
  { sample_count := counter
    sequence_size := metadata.sequence_size
    output_dim := metadata.output_dim
    col_count := metadata.col_count
    row_count := metadata.row_count
    num_channels := metadata.num_channels
    format := if D_info.format == "dense" then "DENSE" else "SPARSE" }

/-- The file side effects of one `convert_vectors_to_sequence_example`
call: the solution artifact (test split only: the labels dumped by
`np.savetxt` before the loop), whether the record file was created
(opening the record writer creates it), the records written to it, and
the sidecar metadata if it was written. -/
structure WriteState where
  solutionWritten : Option (List (List ℚ))
  recordFileCreated : Bool
  records : List SequenceExample
  metadataWritten : Option MetadataTextproto
deriving Repr, DecidableEq

/-- The state of a split whose write never started. -/
def emptyWriteState : WriteState := ⟨none, false, [], none⟩

/-- The function `convert_vectors_to_sequence_example` (lines 300–377): for a test
split write the solution artifact first and use `id_translation = 0`,
otherwise `id_translation = D_info['test_num']`; open the record file,
run the write loop over `zip(features, labels)`, and — unless the loop
raised — write the sidecar metadata with the final counter.  A raised
exception escapes after the earlier records were already persisted and
skips the sidecar write. -/
def convert_vectors_to_sequence_example (metadata : AutoMLMetadata)
    (features : Matrix) (labels : List (List ℚ)) (D_info : DInfo)
    (max_num_examples : Option Nat) : WriteState × Option ConvErr :=
  let is_test_set := metadata.set_type == "test"
  let has_sparse_features := is_sparse features
  let solution := if is_test_set then some labels else none
  let id_translation := if is_test_set then 0 else D_info.test_num
  let res := writeLoop is_test_set has_sparse_features metadata.sequence_size
    id_translation max_num_examples 0 (features.rows.zip labels)
  match res.2.2 with
  | some e => (⟨solution, true, res.1, none⟩, some e)
  | none =>
    (⟨solution, true, res.1,
      some (write_metadata_textproto res.2.1 metadata D_info)⟩, none)

/-- Errors of one split conversion. -/
inductive FormatErr where
  | prep (e : PrepErr)
  | conv (e : ConvErr)
deriving Repr, DecidableEq

/-- One split of `press_a_button_and_give_me_an_AutoDL_dataset`
(lines 430–447): prepare the metadata, features and labels, then convert;
a preparation error aborts before any file of the split is touched. -/
def formatSplit (D : DataManagerD) (set_type : String)
    (sequence_size row_count col_count num_channels : Option Nat)
    (max_num_examples : Option Nat) : WriteState × Option FormatErr :=
  match prepare_metadata_features_and_labels D set_type
      sequence_size row_count col_count num_channels with
  | .error e => (emptyWriteState, some (.prep e))
  | .ok (md, features, lp) =>
    let r := convert_vectors_to_sequence_example md features lp.2 D.info
      max_num_examples
    (r.1, r.2.map .conv)

/-- The function `press_a_button_and_give_me_an_AutoDL_dataset` (lines 398–471),
conversion core only (directory creation, solution-file relocation and
info-file copying are I/O glue outside every claim): format the test
split with `max_num_examples_test`, then — unless it raised — the train
split with `max_num_examples_train`; both calls share the shape flags and
read the loader's `D` unchanged. -/
def press_a_button (D : DataManagerD)
    (sequence_size row_count col_count num_channels : Option Nat)
    (max_num_examples_train max_num_examples_test : Option Nat) :
    (WriteState × Option FormatErr) × Option (WriteState × Option FormatErr) :=
  let test := formatSplit D "test" sequence_size row_count col_count
    num_channels max_num_examples_test
  match test.2 with
  | some _ => (test, none)
  | none =>
    (test, some (formatSplit D "train" sequence_size row_count col_count
      num_channels max_num_examples_train))

/-- The record identifiers emitted in a write state, in write order. -/
def recordIds (st : WriteState) : List Nat := st.records.map (fun r => r.id)

/-- Row-level encodability of a feature matrix: sparse features require
`sequence_size = 1`; dense features require `sequence_size = 1` or a
nonzero sequence length dividing every row width (else `np.reshape`
raises). -/
def RowsEncodable (has_sparse_features : Bool) (sequence_size : Nat)
    (rows : List (List ℚ)) : Prop :=
  (has_sparse_features = true → sequence_size = 1) ∧
  (has_sparse_features = false → sequence_size = 1 ∨
    (0 < sequence_size ∧ ∀ r ∈ rows, sequence_size ∣ r.length))

/-- A small dense multilabel dataset: 3 training rows, 2 validation rows,
2 test rows, flat width 1, `test_num = 2`. -/
def exampleDense : DataManagerD :=
  ⟨⟨"ex", "dense", "multilabel", 2⟩,
   ⟨⟨1, [[1], [2], [3]], false⟩, ⟨1, [[4], [5]], false⟩,
    ⟨1, [[6], [7]], false⟩,
    .twoD 2 [[1, 0], [0, 1], [1, 0]], .twoD 2 [[0, 1], [1, 0]],
    .twoD 2 [[1, 0], [0, 1]]⟩⟩

/-- A sparse multilabel dataset of flat width 2 with one row per split,
`test_num = 1`. -/
def exampleSparse : DataManagerD :=
  ⟨⟨"sp", "sparse", "multilabel", 1⟩,
   ⟨⟨2, [[1, 0]], true⟩, ⟨2, [], true⟩, ⟨2, [[1, 0]], true⟩,
    .twoD 2 [[1, 0]], .twoD 2 [], .twoD 2 [[0, 1]]⟩⟩

theorem binary_to_multilabel_map (l : List ℚ) :
    binary_to_multilabel l = l.map (fun x => [1 - x, x]) := by
  induction l with
  | nil => rfl
  | cons x xs ih =>
    simp only [binary_to_multilabel, npStackAxis1, List.map_cons,
      List.zip_cons_cons] at ih ⊢
    exact congrArg _ ih

theorem regression_to_multilabel_map (l : List ℚ) :
    regression_to_multilabel l =
      l.map (fun x => if npMedian l < x then [0, 1] else [1, 0]) := by
  unfold regression_to_multilabel
  rw [binary_to_multilabel_map, List.map_map]
  refine List.map_congr_left (fun a _ => ?_)
  by_cases h : npMedian l < a <;> simp [h, Function.comp]

/-- C5: binary-classification normalization puts the label in column 1 and
its complement `1 - label` in column 0; in particular `[0,1,1,0]` maps to
`[[1,0],[0,1],[0,1],[1,0]]`. -/
theorem claim_C5_binary_label_normalization :
    (∀ l : List ℚ, binary_to_multilabel l = l.map (fun x => [1 - x, x])) ∧
    binary_to_multilabel [0, 1, 1, 0] = [[1, 0], [0, 1], [0, 1], [1, 0]] :=
  ⟨binary_to_multilabel_map, by rw [binary_to_multilabel_map]; norm_num⟩

/-- C4: regression normalization thresholds at the median: column 1 is the
indicator of `label > median`, column 0 its complement, values equal to
the median counting as not-above; for `[1,2,3,4,5]` the median is `3` and
the output is `[[1,0],[1,0],[1,0],[0,1],[0,1]]`. -/
theorem claim_C4_regression_binarization :
    (∀ l : List ℚ, regression_to_multilabel l =
        l.map (fun x => if npMedian l < x then [0, 1] else [1, 0])) ∧
    npMedian [1, 2, 3, 4, 5] = 3 ∧
    regression_to_multilabel [1, 2, 3, 4, 5] =
      [[1, 0], [1, 0], [1, 0], [0, 1], [0, 1]] := by
  have hmed : npMedian [1, 2, 3, 4, 5] = 3 := by
    norm_num [npMedian, List.insertionSort, List.orderedInsert]
  refine ⟨regression_to_multilabel_map, hmed, ?_⟩
  rw [regression_to_multilabel_map]
  norm_num [hmed]

/-- C10: every row of a normalized binary-classification (0/1 labels) or
regression label matrix has exactly two entries that sum to 1 and is
one-hot: `[1,0]` or `[0,1]`. -/
theorem claim_C10_normalized_rows_one_hot :
    (∀ l : List ℚ, (∀ x ∈ l, x = 0 ∨ x = 1) →
      ∀ row ∈ binary_to_multilabel l,
        row.length = 2 ∧ row.sum = 1 ∧ (row = [1, 0] ∨ row = [0, 1])) ∧
    (∀ l : List ℚ, ∀ row ∈ regression_to_multilabel l,
        row.length = 2 ∧ row.sum = 1 ∧ (row = [1, 0] ∨ row = [0, 1])) := by
  constructor
  · intro l hl row hrow
    rw [binary_to_multilabel_map] at hrow
    obtain ⟨x, hx, rfl⟩ := List.mem_map.mp hrow
    rcases hl x hx with rfl | rfl <;> norm_num
  · intro l row hrow
    rw [regression_to_multilabel_map] at hrow
    obtain ⟨x, hx, rfl⟩ := List.mem_map.mp hrow
    by_cases h : npMedian l < x <;> norm_num [h]

theorem exceptBind_ok {ε α β : Type} (a : α) (g : α → Except ε β) :
    (Except.ok a >>= g) = g a := rfl

theorem exceptBind_error {ε α β : Type} (e : ε) (g : α → Except ε β) :
    ((Except.error e : Except ε α) >>= g) = Except.error e := rfl

theorem buildFromResolved_ok (D : DataManagerD) (set_type : String)
    (features : Matrix) (labels : LabelData)
    (resolved : Option Nat × Option Nat × Option Nat × Option Nat)
    (md : AutoMLMetadata) (f : Matrix) (lp : Nat × List (List ℚ))
    (h : buildFromResolved D set_type features labels resolved =
      .ok (md, f, lp)) :
    f = features ∧ md.set_type = set_type ∧
    md.sequence_size * md.row_count * md.col_count * md.num_channels =
      features.ncols := by
  obtain ⟨s, r, c, ch⟩ := resolved
  cases s <;> cases r <;> cases c <;> cases ch <;>
    simp only [buildFromResolved] at h <;>
    try exact Except.noConfusion h
  rename_i sv rv cv chv
  by_cases hm : features.ncols ≠ sv * rv * cv * chv
  · rw [if_pos hm] at h; exact Except.noConfusion h
  · rw [if_neg hm] at h
    cases labels with
    | oneD v => exact Except.noConfusion h
    | twoD lc lrows =>
      injection h with h1
      simp only [Prod.mk.injEq] at h1
      obtain ⟨hmd, hf, _⟩ := h1
      subst hmd; subst hf
      exact ⟨rfl, rfl, (not_ne_iff.mp hm).symm⟩

theorem buildFromResolved_default (D : DataManagerD) (set_type : String)
    (features : Matrix) (lc : Nat) (lrows : List (List ℚ)) :
    buildFromResolved D set_type features (.twoD lc lrows)
      (some 1, some 1, some features.ncols, some 1) =
      .ok (⟨D.info.name, features.rows.length, lc, set_type, 1, 1,
        features.ncols, 1⟩, features, (lc, lrows)) := by
  simp only [buildFromResolved]
  rw [if_neg (by simp)]

theorem prepare_ok_decomp (D : DataManagerD) (set_type : String)
    (s r c ch : Option Nat) (md : AutoMLMetadata) (f : Matrix)
    (lp : Nat × List (List ℚ))
    (h : prepare_metadata_features_and_labels D set_type s r c ch =
      .ok (md, f, lp)) :
    ∃ fl labels, fetchSplit D set_type = .ok fl ∧
      normalizeLabels D.info.task fl.2 = .ok labels ∧
      resolveShapeAndBuild D set_type fl.1 labels s r c ch =
        .ok (md, f, lp) := by
  unfold prepare_metadata_features_and_labels at h
  cases hf : fetchSplit D set_type with
  | error e =>
    rw [hf] at h
    rw [exceptBind_error] at h
    exact Except.noConfusion h
  | ok fl =>
    rw [hf] at h
    simp only [exceptBind_ok] at h
    cases hn : normalizeLabels D.info.task fl.2 with
    | error e =>
      rw [hn] at h
      rw [exceptBind_error] at h
      exact Except.noConfusion h
    | ok labels =>
      rw [hn] at h
      simp only [exceptBind_ok] at h
      exact ⟨fl, labels, rfl, hn, h⟩

theorem fetchSplit_train_of_empty (D : DataManagerD)
    (h : D.data.X_valid.size = 0) :
    fetchSplit D "train" = .ok (D.data.X_train, D.data.Y_train) := by
  unfold fetchSplit
  rw [if_pos (by rfl), if_neg (by simp [h])]

theorem fetchSplit_train_of_nonempty (D : DataManagerD)
    (h : D.data.X_valid.size ≠ 0) :
    fetchSplit D "train" =
      match concatLabels D.data.Y_train D.data.Y_valid with
      | .ok labels =>
        .ok (Matrix.vconcat D.data.X_train D.data.X_valid, labels)
      | .error e => .error e := by
  unfold fetchSplit
  rw [if_pos (by rfl), if_pos h]

theorem fetchSplit_test (D : DataManagerD) :
    fetchSplit D "test" = .ok (D.data.X_test, D.data.Y_test) := by
  unfold fetchSplit
  rw [if_neg (by decide), if_pos (by rfl)]

/-- C6: for the train split, when the validation feature matrix is
non-empty (nonzero `size`, the code's emptiness test) the features
prepared for writing are the training rows followed by the validation
rows in that order (sparse-aware stacking and dense concatenation are
both this row append), the labels the plain concatenation of the label
rows in the same order; when it is empty, the training matrices are used
unmodified. -/
theorem claim_C6_train_validation_merge :
    (∀ (D : DataManagerD) (s r c ch : Option Nat) (md : AutoMLMetadata)
        (f : Matrix) (lp : Nat × List (List ℚ)),
      prepare_metadata_features_and_labels D "train" s r c ch =
        .ok (md, f, lp) →
      (D.data.X_valid.size ≠ 0 →
        f.rows = D.data.X_train.rows ++ D.data.X_valid.rows) ∧
      (D.data.X_valid.size = 0 → f = D.data.X_train)) ∧
    (∀ (D : DataManagerD) (fl : Matrix × LabelData),
      D.data.X_valid.size ≠ 0 → fetchSplit D "train" = .ok fl →
      fl.1.rows = D.data.X_train.rows ++ D.data.X_valid.rows ∧
      (∀ a b, D.data.Y_train = .oneD a → D.data.Y_valid = .oneD b →
        fl.2 = .oneD (a ++ b)) ∧
      (∀ c1 m1 c2 m2, D.data.Y_train = .twoD c1 m1 →
        D.data.Y_valid = .twoD c2 m2 → fl.2 = .twoD c1 (m1 ++ m2))) ∧
    (∀ D : DataManagerD, D.data.X_valid.size = 0 →
      fetchSplit D "train" = .ok (D.data.X_train, D.data.Y_train)) := by
  refine ⟨?_, ?_, ?_⟩
  · intro D s r c ch md f lp h
    obtain ⟨fl, labels, hf, hn, hb⟩ := prepare_ok_decomp _ _ _ _ _ _ _ _ _ h
    obtain ⟨hfe, _, _⟩ := buildFromResolved_ok _ _ _ _ _ _ _ _ hb
    subst hfe
    constructor
    · intro hv
      rw [fetchSplit_train_of_nonempty D hv] at hf
      cases hcl : concatLabels D.data.Y_train D.data.Y_valid with
      | error e => rw [hcl] at hf; exact Except.noConfusion hf
      | ok labs =>
        rw [hcl] at hf
        injection hf with hf1
        rw [← hf1]
        rfl
    · intro hv
      rw [fetchSplit_train_of_empty D hv] at hf
      injection hf with hf1
      rw [← hf1]
  · intro D fl hv hf
    rw [fetchSplit_train_of_nonempty D hv] at hf
    cases hcl : concatLabels D.data.Y_train D.data.Y_valid with
    | error e => rw [hcl] at hf; exact Except.noConfusion hf
    | ok labs =>
      rw [hcl] at hf
      injection hf with hf1
      subst hf1
      refine ⟨rfl, ?_, ?_⟩
      · intro a b ha hb
        rw [ha, hb] at hcl
        injection hcl with h2
        exact h2.symm
      · intro c1 m1 c2 m2 h1 h2
        rw [h1, h2] at hcl
        injection hcl with h3
        exact h3.symm
  · intro D hv
    rw [fetchSplit_train_of_empty D hv]

/-- C7: a fully-specified shape whose product differs from the flat
feature width is rejected with a Shape Mismatch Error reporting the
declared product and the observed width; a preparation error leaves the
split's write state empty (no record written, no file touched); every
accepted shape satisfies sequence × rows × cols × channels = flat
width. -/
theorem claim_C7_shape_invariant :
    (∀ (D : DataManagerD) (set_type : String) (features : Matrix)
        (labels : LabelData) (s r c ch : Nat),
      s * r * c * ch ≠ features.ncols →
      resolveShapeAndBuild D set_type features labels
        (some s) (some r) (some c) (some ch) =
        .error (.shapeMismatch (s * r * c * ch) features.ncols)) ∧
    (∀ (D : DataManagerD) (set_type : String) (s r c ch : Option Nat)
        (md : AutoMLMetadata) (f : Matrix) (lp : Nat × List (List ℚ)),
      prepare_metadata_features_and_labels D set_type s r c ch =
        .ok (md, f, lp) →
      md.sequence_size * md.row_count * md.col_count * md.num_channels =
        f.ncols) ∧
    (∀ (D : DataManagerD) (set_type : String) (s r c ch maxn : Option Nat)
        (e : PrepErr),
      prepare_metadata_features_and_labels D set_type s r c ch = .error e →
      (formatSplit D set_type s r c ch maxn).1 = emptyWriteState) := by
  refine ⟨?_, ?_, ?_⟩
  · intro D set_type features labels s r c ch hne
    unfold resolveShapeAndBuild resolveShape
    rw [if_neg (by simp)]
    simp only [buildFromResolved]
    rw [if_pos (Ne.symm hne)]
  · intro D set_type s r c ch md f lp h
    obtain ⟨fl, labels, _, _, hb⟩ := prepare_ok_decomp _ _ _ _ _ _ _ _ _ h
    obtain ⟨hfe, _, hprod⟩ := buildFromResolved_ok _ _ _ _ _ _ _ _ hb
    rw [hfe]
    exact hprod
  · intro D set_type s r c ch maxn e h
    unfold formatSplit
    rw [h]

/-- C8: with all four shape components unset the resolved shape defaults
to `(1, 1, flat_width, 1)` and preparation succeeds for any flat feature
width (given that the split fetch and label normalization it depends on
succeed with a 2-D label matrix). -/
theorem claim_C8_default_shape :
    ∀ (D : DataManagerD) (set_type : String) (fl : Matrix × LabelData)
      (lc : Nat) (lrows : List (List ℚ)),
      fetchSplit D set_type = .ok fl →
      normalizeLabels D.info.task fl.2 = .ok (.twoD lc lrows) →
      prepare_metadata_features_and_labels D set_type none none none none =
        .ok (⟨D.info.name, fl.1.rows.length, lc, set_type, 1, 1,
          fl.1.ncols, 1⟩, fl.1, (lc, lrows)) := by
  intro D set_type fl lc lrows hf hn
  unfold prepare_metadata_features_and_labels
  rw [hf]
  simp only [exceptBind_ok]
  rw [hn]
  simp only [exceptBind_ok]
  unfold resolveShapeAndBuild resolveShape
  rw [if_pos (by rfl)]
  exact buildFromResolved_default D set_type fl.1 lc lrows

/-- Witness for C6: the 3-row training matrix merged with the 2-row
validation matrix of the same width yields the 5 rows in order
train-then-validation. -/
theorem claim_C6_train_validation_merge_witness :
    exampleDense.data.X_valid.size ≠ 0 ∧
    (⟨1, [[1], [2], [3], [4], [5]], false⟩ : Matrix).rows =
      exampleDense.data.X_train.rows ++ exampleDense.data.X_valid.rows :=
  ⟨by decide,
    (claim_C6_train_validation_merge.1 exampleDense none none none none
      ⟨"ex", 5, 2, "train", 1, 1, 1, 1⟩
      ⟨1, [[1], [2], [3], [4], [5]], false⟩
      (2, [[1, 0], [0, 1], [1, 0], [0, 1], [1, 0]]) rfl).1 (by decide)⟩

/-- Witness for C7 at the concrete shape (2,1,1,1) against flat
width 3. -/
theorem claim_C7_shape_invariant_witness :
    2 * 1 * 1 * 1 ≠ (⟨3, [[1, 2, 3]], false⟩ : Matrix).ncols ∧
    resolveShapeAndBuild exampleDense "train" ⟨3, [[1, 2, 3]], false⟩
      (.twoD 1 [[1]]) (some 2) (some 1) (some 1) (some 1) =
      .error (.shapeMismatch (2 * 1 * 1 * 1) 3) :=
  ⟨by decide, claim_C7_shape_invariant.1 exampleDense "train"
    ⟨3, [[1, 2, 3]], false⟩ (.twoD 1 [[1]]) 2 1 1 1 (by decide)⟩

/-- Witness for C8 at the concrete dense test split of width 1. -/
theorem claim_C8_default_shape_witness :
    prepare_metadata_features_and_labels exampleDense "test"
      none none none none =
      .ok (⟨"ex", 2, 2, "test", 1, 1, 1, 1⟩, exampleDense.data.X_test,
        (2, [[1, 0], [0, 1]])) :=
  claim_C8_default_shape exampleDense "test"
    (exampleDense.data.X_test, exampleDense.data.Y_test) 2 [[1, 0], [0, 1]]
    rfl rfl

/-- Witness for C10 at the concrete binary label vector `[0, 1]`. -/
theorem claim_C10_normalized_rows_one_hot_witness :
    (∀ x ∈ ([0, 1] : List ℚ), x = 0 ∨ x = 1) ∧
    (∀ row ∈ binary_to_multilabel [0, 1],
      row.length = 2 ∧ row.sum = 1 ∧ (row = [1, 0] ∨ row = [0, 1])) :=
  ⟨by decide, claim_C10_normalized_rows_one_hot.1 [0, 1] (by decide)⟩

theorem encodeRow_id (it sp : Bool) (seq idt counter : Nat)
    (f l : List ℚ) (r : SequenceExample)
    (h : encodeRow it sp seq idt counter f l = .ok r) :
    r.id = counter + idt := by
  simp only [encodeRow] at h
  split at h
  · split at h
    · exact Except.noConfusion h
    · injection h with h1; rw [← h1]
  · split at h
    · injection h with h1; rw [← h1]
    · split at h
      · injection h with h1; rw [← h1]
      · exact Except.noConfusion h

theorem encodeRow_isOk (it sp : Bool) (seq idt counter : Nat)
    (f l : List ℚ)
    (hsp : sp = true → seq = 1)
    (hdn : sp = false → seq = 1 ∨ (0 < seq ∧ seq ∣ f.length)) :
    ∃ r, encodeRow it sp seq idt counter f l = .ok r := by
  cases hE : encodeRow it sp seq idt counter f l with
  | ok r => exact ⟨r, rfl⟩
  | error e =>
    exfalso
    simp only [encodeRow] at hE
    split at hE
    · rename_i hsp'
      split at hE
      · rename_i hne; exact hne (hsp hsp')
      · exact Except.noConfusion hE
    · rename_i hsp'
      have hsp0 : sp = false := by
        cases sp
        · rfl
        · exact absurd rfl hsp'
      split at hE
      · exact Except.noConfusion hE
      · rename_i hne
        rcases hdn hsp0 with h2 | ⟨hpos, hdvd⟩
        · exact hne h2
        · have hre : npReshapeRow seq f =
              .ok (chunkList (f.length / seq) f) := by
            unfold npReshapeRow
            rw [if_neg (by omega),
              if_neg (by simp [Nat.mod_eq_zero_of_dvd hdvd])]
          rw [hre] at hE
          exact Except.noConfusion hE

theorem writeLoop_zero_eq_none (it sp : Bool) (seq idt : Nat) :
    ∀ (pairs : List (List ℚ × List ℚ)) (counter : Nat),
      writeLoop it sp seq idt (some 0) counter pairs =
        writeLoop it sp seq idt none counter pairs := by
  intro pairs
  induction pairs with
  | nil => intro counter; rfl
  | cons p rest ih =>
    intro counter
    obtain ⟨f, l⟩ := p
    simp only [writeLoop]
    cases henc : encodeRow it sp seq idt counter f l with
    | error e => rfl
    | ok r =>
      dsimp only
      rw [if_neg (by simp [truthy]), if_neg (by simp [truthy])]
      rw [ih (counter + 1)]

theorem writeLoop_ids (it sp : Bool) (seq idt : Nat) (maxn : Option Nat) :
    ∀ (pairs : List (List ℚ × List ℚ)) (counter : Nat),
      (writeLoop it sp seq idt maxn counter pairs).1.map (fun r => r.id) =
        List.range' (counter + idt)
          (writeLoop it sp seq idt maxn counter pairs).1.length := by
  intro pairs
  induction pairs with
  | nil => intro counter; rfl
  | cons p rest ih =>
    intro counter
    obtain ⟨f, l⟩ := p
    simp only [writeLoop]
    cases henc : encodeRow it sp seq idt counter f l with
    | error e => rfl
    | ok r =>
      dsimp only
      have hid := encodeRow_id it sp seq idt counter f l r henc
      by_cases hbr : truthy maxn = true ∧ maxn.getD 0 ≤ counter + 1
      · rw [if_pos hbr]
        simp [hid, List.range']
      · rw [if_neg hbr]
        simp only [List.map_cons, List.length_cons]
        rw [ih (counter + 1), hid, List.range'_succ]
        rw [show counter + 1 + idt = counter + idt + 1 from by omega]

theorem writeLoop_spec (it sp : Bool) (seq idt : Nat) (maxn : Option Nat) :
    ∀ (pairs : List (List ℚ × List ℚ)) (counter : Nat),
      (∀ p ∈ pairs, (sp = true → seq = 1) ∧
        (sp = false → seq = 1 ∨ (0 < seq ∧ seq ∣ p.1.length))) →
      (truthy maxn = true → counter < maxn.getD 0) →
      (writeLoop it sp seq idt maxn counter pairs).2.2 = none ∧
      (writeLoop it sp seq idt maxn counter pairs).1.length =
        (if truthy maxn = true
         then min (maxn.getD 0 - counter) pairs.length
         else pairs.length) ∧
      (writeLoop it sp seq idt maxn counter pairs).2.1 =
        counter + (writeLoop it sp seq idt maxn counter pairs).1.length ∧
      (∀ j p, pairs.get? j = some p →
        j < (writeLoop it sp seq idt maxn counter pairs).1.length →
        (writeLoop it sp seq idt maxn counter pairs).1.get? j =
          (encodeRow it sp seq idt (counter + j) p.1 p.2).toOption) := by
  intro pairs
  induction pairs with
  | nil =>
    intro counter _ _
    refine ⟨rfl, by simp [writeLoop], rfl, ?_⟩
    intro j p hj hlt
    simp [writeLoop] at hlt
  | cons q rest ih =>
    intro counter hwf hcm
    obtain ⟨f, l⟩ := q
    have hwfq := hwf (f, l) (List.mem_cons_self _ _)
    obtain ⟨r, henc⟩ := encodeRow_isOk it sp seq idt counter f l
      hwfq.1 hwfq.2
    simp only [writeLoop]
    rw [henc]
    dsimp only
    by_cases hbr : truthy maxn = true ∧ maxn.getD 0 ≤ counter + 1
    · rw [if_pos hbr]
      obtain ⟨ht, hle⟩ := hbr
      have hm := hcm ht
      refine ⟨rfl, ?_, rfl, ?_⟩
      · rw [if_pos ht]
        simp only [List.length_cons, List.length_nil]
        omega
      · intro j p hj hlt
        simp only [List.length_cons, List.length_nil] at hlt
        cases j with
        | zero =>
          simp only [List.get?_cons_zero, Option.some.injEq] at hj
          subst hj
          simp [henc, Except.toOption]
        | succ n => omega
    · rw [if_neg hbr]
      have hcm' : truthy maxn = true → counter + 1 < maxn.getD 0 := by
        intro ht
        rcases Nat.lt_or_ge (counter + 1) (maxn.getD 0) with h | h
        · exact h
        · exact absurd ⟨ht, h⟩ hbr
      have hwf' : ∀ p ∈ rest, (sp = true → seq = 1) ∧
          (sp = false → seq = 1 ∨ (0 < seq ∧ seq ∣ p.1.length)) :=
        fun p hp => hwf p (List.mem_cons_of_mem _ hp)
      obtain ⟨ih1, ih2, ih3, ih4⟩ := ih (counter + 1) hwf' hcm'
      refine ⟨ih1, ?_, ?_, ?_⟩
      · simp only [List.length_cons, ih2]
        by_cases ht : truthy maxn = true
        · have h1 := hcm ht
          have h2 : ¬ maxn.getD 0 ≤ counter + 1 := fun h => absurd ⟨ht, h⟩ hbr
          rw [if_pos ht, if_pos ht]
          omega
        · rw [if_neg ht, if_neg ht]
      · simp only [List.length_cons, ih3]
        omega
      · intro j p hj hlt
        cases j with
        | zero =>
          simp only [List.get?_cons_zero, Option.some.injEq] at hj
          subst hj
          simp [henc, Except.toOption]
        | succ n =>
          simp only [List.get?_cons_succ] at hj
          simp only [List.length_cons] at hlt
          have := ih4 n p hj (by omega)
          simp only [List.get?_cons_succ]
          rw [this, show counter + 1 + n = counter + (n + 1) from by omega]

/-- C2 (amended): a write invocation with sparse features, a declared
sequence length other than 1 and at least one (feature row, label row)
pair fails with the Configuration Error before any record is emitted and
before the sidecar metadata is written; but the record file has been
created, and for a test split the solution artifact has already been
written. -/
theorem claim_C2_sparse_sequence_rejection (md : AutoMLMetadata)
    (features : Matrix) (labels : List (List ℚ)) (info : DInfo)
    (maxn : Option Nat)
    (hs : features.sparse = true) (hseq : md.sequence_size ≠ 1)
    (hr : features.rows ≠ []) (hl : labels ≠ []) :
    (convert_vectors_to_sequence_example md features labels info maxn).2 =
      some .sparseSeq ∧
    (convert_vectors_to_sequence_example md features labels info maxn).1 =
      ⟨if md.set_type == "test" then some labels else none, true, [],
        none⟩ := by
  obtain ⟨f, fr, hrows⟩ := List.exists_cons_of_ne_nil hr
  obtain ⟨l, lr, hlabs⟩ := List.exists_cons_of_ne_nil hl
  have henc : encodeRow (md.set_type == "test") (is_sparse features)
      md.sequence_size (if md.set_type == "test" then 0 else info.test_num)
      0 f l = .error .sparseSeq := by
    simp only [encodeRow, is_sparse, hs]
    rw [if_pos trivial, if_pos hseq]
  have hloop : writeLoop (md.set_type == "test") (is_sparse features)
      md.sequence_size (if md.set_type == "test" then 0 else info.test_num)
      maxn 0 (features.rows.zip labels) = ([], 0, some .sparseSeq) := by
    rw [hrows, hlabs, List.zip_cons_cons]
    simp only [writeLoop, henc]
  simp only [convert_vectors_to_sequence_example, hloop]
  exact ⟨trivial, trivial⟩

/-- C2 counterexample: at a concrete sparse test split with sequence
length 2 the conversion does fail, but only after the solution artifact
was written and the record file created; moreover with zero rows the same
configuration raises no error at all — so the failure is not prior to all
I/O as claimed. -/
theorem claim_C2_counterexample :
    ((formatSplit exampleSparse "test" (some 2) (some 1) (some 1) (some 1)
        none).2 = some (.conv .sparseSeq) ∧
      (formatSplit exampleSparse "test" (some 2) (some 1) (some 1) (some 1)
          none).1.solutionWritten = some [[0, 1]] ∧
      (formatSplit exampleSparse "test" (some 2) (some 1) (some 1) (some 1)
          none).1.recordFileCreated = true) ∧
    (convert_vectors_to_sequence_example ⟨"sp", 0, 2, "test", 2, 1, 1, 1⟩
        ⟨2, [], true⟩ [] exampleSparse.info none).2 = none :=
  ⟨⟨rfl, rfl, rfl⟩, rfl⟩

/-- Witness for the amended C2 at the concrete one-row sparse test
split. -/
theorem claim_C2_sparse_sequence_rejection_witness :
    (convert_vectors_to_sequence_example ⟨"sp", 1, 2, "test", 2, 1, 1, 1⟩
        ⟨2, [[1, 0]], true⟩ [[0, 1]] exampleSparse.info none).2 =
      some .sparseSeq ∧
    (convert_vectors_to_sequence_example ⟨"sp", 1, 2, "test", 2, 1, 1, 1⟩
        ⟨2, [[1, 0]], true⟩ [[0, 1]] exampleSparse.info none).1 =
      ⟨if ("test" : String) == "test" then some [[0, 1]] else none, true,
        [], none⟩ :=
  claim_C2_sparse_sequence_rejection ⟨"sp", 1, 2, "test", 2, 1, 1, 1⟩
    ⟨2, [[1, 0]], true⟩ [[0, 1]] exampleSparse.info none rfl (by decide)
    (by simp) (by simp)

/-- C3: with a truncation limit `k` — a limit is applied only when the
value is truthy, hence `k ≠ 0` — smaller than the row count, the write
emits exactly `k` records, the encodings of the first `k` rows in
original matrix order, and the sidecar's `sample_count` equals `k`, the
emitted count; with no limit set, every row is emitted. -/
theorem claim_C3_truncation (md : AutoMLMetadata) (features : Matrix)
    (labels : List (List ℚ)) (info : DInfo) (k : Nat)
    (hk : 0 < k) (hkr : k < features.rows.length)
    (hlen : labels.length = features.rows.length)
    (henc : RowsEncodable features.sparse md.sequence_size features.rows) :
    (convert_vectors_to_sequence_example md features labels info
        (some k)).2 = none ∧
    (convert_vectors_to_sequence_example md features labels info
        (some k)).1.records.length = k ∧
    (∀ j p, (features.rows.zip labels).get? j = some p → j < k →
      (convert_vectors_to_sequence_example md features labels info
          (some k)).1.records.get? j =
        (encodeRow (md.set_type == "test") (is_sparse features)
          md.sequence_size
          (if md.set_type == "test" then 0 else info.test_num) j p.1
          p.2).toOption) ∧
    (convert_vectors_to_sequence_example md features labels info
        (some k)).1.metadataWritten.map (fun m => m.sample_count) =
      some k ∧
    (convert_vectors_to_sequence_example md features labels info
        none).2 = none ∧
    (convert_vectors_to_sequence_example md features labels info
        none).1.records.length = features.rows.length := by
  have hzlen : (features.rows.zip labels).length =
      features.rows.length := by
    rw [List.length_zip, hlen, Nat.min_self]
  have hwf : ∀ p ∈ features.rows.zip labels,
      (is_sparse features = true → md.sequence_size = 1) ∧
      (is_sparse features = false → md.sequence_size = 1 ∨
        (0 < md.sequence_size ∧ md.sequence_size ∣ p.1.length)) := by
    intro p hp
    obtain ⟨h1, h2⟩ := henc
    refine ⟨h1, fun hf => ?_⟩
    rcases h2 hf with hone | ⟨hpos, hall⟩
    · exact Or.inl hone
    · exact Or.inr ⟨hpos, hall p.1 (List.of_mem_zip hp).1⟩
  have ht : truthy (some k) = true := by
    simp only [truthy, bne_iff_ne, ne_eq]
    omega
  obtain ⟨e1, e2, e3, e4⟩ := writeLoop_spec (md.set_type == "test")
    (is_sparse features) md.sequence_size
    (if md.set_type == "test" then 0 else info.test_num) (some k)
    (features.rows.zip labels) 0 hwf (fun _ => hk)
  obtain ⟨n1, n2, _, _⟩ := writeLoop_spec (md.set_type == "test")
    (is_sparse features) md.sequence_size
    (if md.set_type == "test" then 0 else info.test_num) none
    (features.rows.zip labels) 0 hwf (fun h => Bool.noConfusion h)
  have hlen1 : (writeLoop (md.set_type == "test") (is_sparse features)
      md.sequence_size
      (if md.set_type == "test" then 0 else info.test_num) (some k) 0
      (features.rows.zip labels)).1.length = k := by
    rw [e2, if_pos ht, hzlen]
    simp only [Option.getD_some, Nat.sub_zero]
    omega
  have hlen2 : (writeLoop (md.set_type == "test") (is_sparse features)
      md.sequence_size
      (if md.set_type == "test" then 0 else info.test_num) none 0
      (features.rows.zip labels)).1.length = features.rows.length := by
    rw [n2, if_neg (by decide), hzlen]
  refine ⟨?_, ?_, ?_, ?_, ?_, ?_⟩
  · simp only [convert_vectors_to_sequence_example]
    rw [e1]
  · simp only [convert_vectors_to_sequence_example]
    rw [e1]
    dsimp only
    exact hlen1
  · intro j p hj hjk
    simp only [convert_vectors_to_sequence_example]
    rw [e1]
    dsimp only
    have h5 := e4 j p hj (by omega)
    rwa [Nat.zero_add] at h5
  · simp only [convert_vectors_to_sequence_example]
    rw [e1]
    dsimp only
    simp only [write_metadata_textproto, Option.map_some']
    rw [e3, hlen1, Nat.zero_add]
  · simp only [convert_vectors_to_sequence_example]
    rw [n1]
  · simp only [convert_vectors_to_sequence_example]
    rw [n1]
    dsimp only
    exact hlen2

/-- Witness for C3: truncating the 5-row dense train split to 2 examples
emits 2 records and a sidecar with `sample_count = 2`. -/
theorem claim_C3_truncation_witness :
    (convert_vectors_to_sequence_example ⟨"ex", 5, 2, "train", 1, 1, 1, 1⟩
        ⟨1, [[1], [2], [3], [4], [5]], false⟩
        [[1, 0], [0, 1], [1, 0], [0, 1], [1, 0]] exampleDense.info
        (some 2)).1.records.length = 2 ∧
    (convert_vectors_to_sequence_example ⟨"ex", 5, 2, "train", 1, 1, 1, 1⟩
        ⟨1, [[1], [2], [3], [4], [5]], false⟩
        [[1, 0], [0, 1], [1, 0], [0, 1], [1, 0]] exampleDense.info
        (some 2)).1.metadataWritten.map (fun m => m.sample_count) =
      some 2 :=
  ⟨(claim_C3_truncation ⟨"ex", 5, 2, "train", 1, 1, 1, 1⟩
      ⟨1, [[1], [2], [3], [4], [5]], false⟩
      [[1, 0], [0, 1], [1, 0], [0, 1], [1, 0]] exampleDense.info 2
      (by decide) (by decide) rfl ⟨fun _ => rfl, fun _ => Or.inl rfl⟩).2.1,
   (claim_C3_truncation ⟨"ex", 5, 2, "train", 1, 1, 1, 1⟩
      ⟨1, [[1], [2], [3], [4], [5]], false⟩
      [[1, 0], [0, 1], [1, 0], [0, 1], [1, 0]] exampleDense.info 2
      (by decide) (by decide) rfl ⟨fun _ => rfl, fun _ => Or.inl rfl⟩).2.2.2.1⟩

/-- C9: a truncation limit of 0 is falsy, so `max_num_examples = 0`
behaves exactly as if no limit were set — the write has the same outcome
and every row is emitted; a caller cannot request zero emitted records
through the limit. -/
theorem claim_C9_zero_limit_means_no_limit (md : AutoMLMetadata)
    (features : Matrix) (labels : List (List ℚ)) (info : DInfo)
    (hlen : labels.length = features.rows.length)
    (henc : RowsEncodable features.sparse md.sequence_size features.rows) :
    convert_vectors_to_sequence_example md features labels info (some 0) =
      convert_vectors_to_sequence_example md features labels info none ∧
    (convert_vectors_to_sequence_example md features labels info
        (some 0)).1.records.length = features.rows.length := by
  have hEq : convert_vectors_to_sequence_example md features labels info
      (some 0) =
      convert_vectors_to_sequence_example md features labels info none := by
    simp only [convert_vectors_to_sequence_example]
    rw [writeLoop_zero_eq_none]
  refine ⟨hEq, ?_⟩
  rw [hEq]
  have hzlen : (features.rows.zip labels).length =
      features.rows.length := by
    rw [List.length_zip, hlen, Nat.min_self]
  have hwf : ∀ p ∈ features.rows.zip labels,
      (is_sparse features = true → md.sequence_size = 1) ∧
      (is_sparse features = false → md.sequence_size = 1 ∨
        (0 < md.sequence_size ∧ md.sequence_size ∣ p.1.length)) := by
    intro p hp
    obtain ⟨h1, h2⟩ := henc
    refine ⟨h1, fun hf => ?_⟩
    rcases h2 hf with hone | ⟨hpos, hall⟩
    · exact Or.inl hone
    · exact Or.inr ⟨hpos, hall p.1 (List.of_mem_zip hp).1⟩
  obtain ⟨n1, n2, _, _⟩ := writeLoop_spec (md.set_type == "test")
    (is_sparse features) md.sequence_size
    (if md.set_type == "test" then 0 else info.test_num) none
    (features.rows.zip labels) 0 hwf (fun h => Bool.noConfusion h)
  simp only [convert_vectors_to_sequence_example]
  rw [n1]
  dsimp only
  rw [n2, if_neg (by decide), hzlen]

/-- Witness for C9 at the concrete 2-row dense test split. -/
theorem claim_C9_zero_limit_means_no_limit_witness :
    convert_vectors_to_sequence_example ⟨"ex", 2, 2, "test", 1, 1, 1, 1⟩
        exampleDense.data.X_test [[1, 0], [0, 1]] exampleDense.info
        (some 0) =
      convert_vectors_to_sequence_example ⟨"ex", 2, 2, "test", 1, 1, 1, 1⟩
        exampleDense.data.X_test [[1, 0], [0, 1]] exampleDense.info none ∧
    (convert_vectors_to_sequence_example ⟨"ex", 2, 2, "test", 1, 1, 1, 1⟩
        exampleDense.data.X_test [[1, 0], [0, 1]] exampleDense.info
        (some 0)).1.records.length = 2 :=
  claim_C9_zero_limit_means_no_limit ⟨"ex", 2, 2, "test", 1, 1, 1, 1⟩
    exampleDense.data.X_test [[1, 0], [0, 1]] exampleDense.info rfl
    ⟨fun _ => rfl, fun _ => Or.inl rfl⟩

theorem convert_records_eq (md : AutoMLMetadata) (features : Matrix)
    (labels : List (List ℚ)) (info : DInfo) (maxn : Option Nat) :
    (convert_vectors_to_sequence_example md features labels info
        maxn).1.records =
      (writeLoop (md.set_type == "test") (is_sparse features)
        md.sequence_size
        (if md.set_type == "test" then 0 else info.test_num) maxn 0
        (features.rows.zip labels)).1 := by
  simp only [convert_vectors_to_sequence_example]
  cases h : (writeLoop (md.set_type == "test") (is_sparse features)
      md.sequence_size
      (if md.set_type == "test" then 0 else info.test_num) maxn 0
      (features.rows.zip labels)).2.2 <;> rfl

theorem formatSplit_ids (D : DataManagerD) (set_type : String)
    (s r c ch maxn : Option Nat) (st : WriteState)
    (h : formatSplit D set_type s r c ch maxn = (st, none)) :
    recordIds st = List.range'
      (if set_type == "test" then 0 else D.info.test_num)
      st.records.length := by
  unfold formatSplit at h
  cases hp : prepare_metadata_features_and_labels D set_type s r c ch with
  | error e =>
    rw [hp] at h
    exact Option.noConfusion (congrArg Prod.snd h)
  | ok t =>
    obtain ⟨md, features, lp⟩ := t
    rw [hp] at h
    dsimp only at h
    have hst : (convert_vectors_to_sequence_example md features lp.2 D.info
        maxn).1 = st := congrArg Prod.fst h
    obtain ⟨fl, labels, hfetch, hnorm, hb⟩ :=
      prepare_ok_decomp _ _ _ _ _ _ _ _ _ hp
    obtain ⟨_, hset, _⟩ := buildFromResolved_ok _ _ _ _ _ _ _ _ hb
    subst hst
    unfold recordIds
    rw [convert_records_eq, writeLoop_ids, Nat.zero_add, hset]

/-- C1: each record identifier is its row index plus the split id offset
(0 for the test split, `test_num` for the train split); with `test_num`
equal to the number `T` of test examples already written, the test IDs
are `{0,…,T−1}` and the train IDs exactly `{T,…,T+N−1}`, disjoint from
the test IDs. -/
theorem claim_C1_id_offsets (D : DataManagerD)
    (s r c ch maxTr maxTe : Option Nat) (testSt trainSt : WriteState)
    (hrun : press_a_button D s r c ch maxTr maxTe =
      ((testSt, none), some (trainSt, none)))
    (hT : D.info.test_num = testSt.records.length) :
    recordIds testSt = List.range testSt.records.length ∧
    recordIds trainSt = (List.range trainSt.records.length).map
      (fun i => i + testSt.records.length) ∧
    ∀ i, i ∈ recordIds trainSt → i ∉ recordIds testSt := by
  unfold press_a_button at hrun
  have hrun2 : (match (formatSplit D "test" s r c ch maxTe).2 with
      | some _ => (formatSplit D "test" s r c ch maxTe, none)
      | none => (formatSplit D "test" s r c ch maxTe,
          some (formatSplit D "train" s r c ch maxTr))) =
      ((testSt, none), some (trainSt, none)) := hrun
  clear hrun
  cases h2 : (formatSplit D "test" s r c ch maxTe).2 with
  | some e =>
    rw [h2] at hrun2
    exact Option.noConfusion (congrArg Prod.snd hrun2)
  | none =>
    rw [h2] at hrun2
    dsimp only at hrun2
    have htest : formatSplit D "test" s r c ch maxTe = (testSt, none) := by
      have h3 := congrArg Prod.fst hrun2
      dsimp only at h3
      rw [Prod.ext_iff] at h3
      exact Prod.ext h3.1 h2
    have htrain : formatSplit D "train" s r c ch maxTr =
        (trainSt, none) := by
      have h4 := congrArg Prod.snd hrun2
      dsimp only at h4
      exact Option.some.inj h4
    have hids1 := formatSplit_ids D "test" s r c ch maxTe testSt htest
    have hids2 := formatSplit_ids D "train" s r c ch maxTr trainSt htrain
    have e1 : (("test" : String) == "test") = true := rfl
    have e2 : ¬ ((("train" : String) == "test") = true) := by decide
    rw [if_pos e1] at hids1
    rw [if_neg e2] at hids2
    rw [hT] at hids2
    have htr : recordIds trainSt =
        (List.range trainSt.records.length).map
          (fun i => i + testSt.records.length) := by
      rw [hids2, List.range'_eq_map_range]
      exact List.map_congr_left (fun a _ => Nat.add_comm _ a)
    refine ⟨by rw [hids1]; exact (List.range_eq_range' _).symm, htr, ?_⟩
    intro i hitr hite
    rw [hids2, List.mem_range'_1] at hitr
    rw [hids1, List.mem_range'_1] at hite
    omega

/-- Witness for C1 at the concrete dense dataset (2 test rows, 3+2
merged train rows, `test_num = 2`): test IDs are `{0,1}`, train IDs
`{2,…,6}`. -/
theorem claim_C1_id_offsets_witness :
    recordIds (press_a_button exampleDense none none none none none
        none).1.1 =
      List.range (press_a_button exampleDense none none none none none
        none).1.1.records.length ∧
    recordIds ((press_a_button exampleDense none none none none none
        none).2.getD (emptyWriteState, none)).1 =
      (List.range ((press_a_button exampleDense none none none none none
        none).2.getD (emptyWriteState, none)).1.records.length).map
        (fun i => i + (press_a_button exampleDense none none none none
          none none).1.1.records.length) ∧
    ∀ i, i ∈ recordIds ((press_a_button exampleDense none none none none
        none none).2.getD (emptyWriteState, none)).1 →
      i ∉ recordIds (press_a_button exampleDense none none none none none
        none).1.1 :=
  claim_C1_id_offsets exampleDense none none none none none none
    (press_a_button exampleDense none none none none none none).1.1
    ((press_a_button exampleDense none none none none none
      none).2.getD (emptyWriteState, none)).1
    rfl rfl

end FormatAutoML
